import Mathlib

/-!
# SwiftPOS in-memory data/state layer — shallow embedding

This file embeds the data-context layer of the SwiftPOS application
(the `DataProvider` component: entity collections and their mutators
`addProduct`, `updateProduct`, `deleteProduct`, `addSale`, `deleteSale`,
`addCategory`, `updateCategory`, `deleteCategory`, `importData`,
`exportBackup`) and proves, or refutes, the specified properties.

Modelling conventions:
* JavaScript numbers are modelled as `Int` (stock may go negative; the
  claims only involve integer arithmetic, which the source computes
  symbolically the same way).
* `generateId()` (timestamp + randomness) is nondeterministic; each
  mutator that generates ids receives them as explicit parameters, and
  "today" (`new Date().toISOString().split('T')[0]`) is likewise passed in.
* Toast notifications are an external side channel and are not part of
  the state; boolean / result returns are kept.
* `window.confirm` is modelled as an explicit `Bool` parameter.
* An optional string field (`supplierId?: string`) is `Option String`;
  its JavaScript truthiness test is `strTruthy` (undefined/null and the
  empty string are falsy).
-/

/-- A product record (`Product` in `types`): the fields read and written
by the data context and described in the spec's data model. -/
structure Product where
  id : String
  name : String
  category : String
  stock : Int
  buyingPrice : Int
  sellingPrice : Int
  supplierId : Option String
  deriving DecidableEq, Repr

/-- `Omit<Product, 'id'>`: the payload passed to `addProduct`. -/
structure ProductData where
  name : String
  category : String
  stock : Int
  buyingPrice : Int
  sellingPrice : Int
  supplierId : Option String
  deriving DecidableEq, Repr

/-- `{ ...product, id }`: attach a generated id to the payload. -/
def ProductData.withId (d : ProductData) (i : String) : Product :=
  ⟨i, d.name, d.category, d.stock, d.buyingPrice, d.sellingPrice, d.supplierId⟩

/-- A sale line item: product reference, quantity, price at time of sale. -/
structure SaleItem where
  productId : String
  quantity : Int
  price : Int
  deriving DecidableEq, Repr

/-- A sale record (`Sale` in `types`). -/
structure Sale where
  id : String
  items : List SaleItem
  customerType : String
  customerId : Option String
  date : String
  deriving DecidableEq, Repr

/-- `Omit<Sale, 'id'>`: the payload passed to `addSale`. -/
structure SaleData where
  items : List SaleItem
  customerType : String
  customerId : Option String
  date : String
  deriving DecidableEq, Repr

/-- `{ ...sale, id }`. -/
def SaleData.withId (s : SaleData) (i : String) : Sale :=
  ⟨i, s.items, s.customerType, s.customerId, s.date⟩

/-- A purchase record, auto-created on stock increase. -/
structure Purchase where
  id : String
  date : String
  supplierId : Option String
  productId : String
  quantity : Int
  unitCost : Int
  totalCost : Int
  deriving DecidableEq, Repr

/-- Supplier: independent record, internals opaque to the claims. -/
structure Supplier where
  id : String
  name : String
  deriving DecidableEq, Repr

/-- Expense: independent record, internals opaque to the claims. -/
structure Expense where
  id : String
  amount : Int
  deriving DecidableEq, Repr

/-- Customer: independent record, internals opaque to the claims. -/
structure Customer where
  id : String
  name : String
  deriving DecidableEq, Repr

/-- CustomerPayment: independent record, internals opaque to the claims. -/
structure CustomerPayment where
  id : String
  amount : Int
  deriving DecidableEq, Repr

/-- CompanyInfo singleton: name, optional address/phone/logo. -/
structure CompanyInfo where
  name : String
  address : Option String
  phone : Option String
  logo : Option String
  deriving DecidableEq, Repr

/-- SystemSettings singleton, fields as in the default settings object. -/
structure SystemSettings where
  businessType : String
  currency : String
  taxRate : Int
  enableNotifications : Bool
  enableSound : Bool
  lowStockThreshold : Int
  receiptSize : String
  receiptFooter : String
  storagePreference : String
  storagePath : String
  deriving DecidableEq, Repr

/-- The full in-memory state held by `DataProvider`: the ten
independently stored collections / singletons. -/
structure DataState where
  products : List Product
  sales : List Sale
  suppliers : List Supplier
  expenses : List Expense
  customers : List Customer
  purchases : List Purchase
  customerPayments : List CustomerPayment
  companyInfo : CompanyInfo
  systemSettings : SystemSettings
  categories : List String
  deriving DecidableEq, Repr

/-- JavaScript truthiness of an optional string field: `undefined`,
`null` and the empty string are falsy, every other string truthy. -/
def strTruthy : Option String → Bool
  | none => false
  | some s => !(s == "")

/-- Drop leading whitespace characters from a character list. -/
def trimLeftChars : List Char → List Char
  | [] => []
  | c :: cs => if c.isWhitespace then trimLeftChars cs else c :: cs

/-- Model of JavaScript `String.prototype.trim()`: strip whitespace
from both ends (right end handled by reversing). -/
def jsTrim (s : String) : String :=
  ⟨trimLeftChars (trimLeftChars s.data.reverse).reverse⟩

/-- Model of JavaScript `String.prototype.toLowerCase()`: lower-case
every character. -/
def jsToLower (s : String) : String := ⟨s.data.map Char.toLower⟩

/-- `addProduct` (source lines 170-184): appends the new product with a
generated id; if `supplierId` is truthy and `stock > 0` and
`buyingPrice > 0`, also appends a purchase dated today with
quantity = stock, unitCost = buyingPrice, totalCost = stock * buyingPrice. -/
def addProduct (newId purchaseId today : String) (product : ProductData)
    (st : DataState) : DataState :=
  let newProduct := product.withId newId
  let st1 := { st with products := st.products ++ [newProduct] }
  if strTruthy newProduct.supplierId ∧ newProduct.stock > 0 ∧ newProduct.buyingPrice > 0 then
    { st1 with purchases := st1.purchases ++
        [{ id := purchaseId, date := today, supplierId := newProduct.supplierId,
           productId := newProduct.id, quantity := newProduct.stock,
           unitCost := newProduct.buyingPrice,
           totalCost := newProduct.stock * newProduct.buyingPrice }] }
  else st1

/-- `updateProduct` (source lines 186-204): looks up the old product
(`oldStock` is 0 when absent), replaces every product with the same id,
and when the stock increase is positive and supplier/buyingPrice
conditions hold, appends a purchase for the delta only. -/
def updateProduct (purchaseId today : String) (updatedProduct : Product)
    (st : DataState) : DataState :=
  let oldStock : Int :=
    match st.products.find? (fun p => p.id == updatedProduct.id) with
    | some p => p.stock
    | none => 0
  let products' := st.products.map
    (fun p => if p.id = updatedProduct.id then updatedProduct else p)
  let stockIncrease := updatedProduct.stock - oldStock
  if strTruthy updatedProduct.supplierId ∧ stockIncrease > 0 ∧ updatedProduct.buyingPrice > 0 then
    { st with products := products', purchases := st.purchases ++
        [{ id := purchaseId, date := today, supplierId := updatedProduct.supplierId,
           productId := updatedProduct.id, quantity := stockIncrease,
           unitCost := updatedProduct.buyingPrice,
           totalCost := stockIncrease * updatedProduct.buyingPrice }] }
  else { st with products := products' }

/-- `deleteProduct` (source line 206): removes every product with the id. -/
def deleteProduct (productId : String) (st : DataState) : DataState :=
  { st with products := st.products.filter (fun p => ¬ (p.id = productId)) }

/-- One step of the stock update inside `addSale`
(`newProducts[productIndex].stock -= item.quantity` after
`findIndex`): decrement the stock of the first product whose id
matches; if none matches, the list is unchanged. -/
def saleDecStock : List Product → String → Int → List Product
  | [], _, _ => []
  | p :: rest, pid, q =>
      if p.id = pid then { p with stock := p.stock - q } :: rest
      else p :: saleDecStock rest pid q

/-- One step of the stock restore inside `deleteSale`
(`newProducts[productIndex].stock += item.quantity`). -/
def saleIncStock : List Product → String → Int → List Product
  | [], _, _ => []
  | p :: rest, pid, q =>
      if p.id = pid then { p with stock := p.stock + q } :: rest
      else p :: saleIncStock rest pid q

/-- The `forEach` loop of `addSale` over the sale's items. -/
def applySaleDec (items : List SaleItem) (ps : List Product) : List Product :=
  items.foldl (fun acc it => saleDecStock acc it.productId it.quantity) ps

/-- The `forEach` loop of `deleteSale` over the deleted sale's items. -/
def applySaleInc (items : List SaleItem) (ps : List Product) : List Product :=
  items.foldl (fun acc it => saleIncStock acc it.productId it.quantity) ps

/-- The `newSale` built by `addSale`: the payload with a generated id;
when the customer classification is neither walk-in nor online it is a
customer identifier and is stored on the sale. -/
def newSaleOf (newId : String) (sale : SaleData) : Sale :=
  let base := sale.withId newId
  if sale.customerType ≠ "walk-in" ∧ sale.customerType ≠ "online" then
    { base with customerId := some sale.customerType }
  else base

/-- `addSale` (source lines 208-225): builds `newSale`, decrements each
line item's matching product stock (items with no matching product are
skipped by `findIndex`), appends the sale. (`newSale.items` is the
payload's item list unchanged.) -/
def addSale (newId : String) (sale : SaleData) (st : DataState) : DataState :=
  { st with products := applySaleDec sale.items st.products,
            sales := st.sales ++ [newSaleOf newId sale] }

/-- `deleteSale` (source lines 227-243): no-op when the id is absent;
otherwise restores each line item's quantity onto the matching product
stock and removes the sale. -/
def deleteSale (saleId : String) (st : DataState) : DataState :=
  match st.sales.find? (fun s => s.id == saleId) with
  | none => st
  | some saleToDelete =>
      { st with products := applySaleInc saleToDelete.items st.products,
                sales := st.sales.filter (fun s => ¬ (s.id = saleId)) }

/-- `addCategory` (source lines 261-270): trims the name; if the
trimmed name is already present case-insensitively, returns false with
no mutation; otherwise appends the trimmed name and returns true.
(The boolean result and the new state are returned as a pair.) -/
def addCategory (name : String) (st : DataState) : Bool × DataState :=
  let trimmedName := jsTrim name
  if jsToLower trimmedName ∈ st.categories.map jsToLower then (false, st)
  else (true, { st with categories := st.categories ++ [trimmedName] })

/-- `updateCategory` (source lines 272-295): rejects an empty trimmed
new name; rejects a rename to an existing different name
case-insensitively; otherwise rewrites the category field of every
product currently set to `oldName` and renames the category entry,
returning true. -/
def updateCategory (oldName newName : String) (st : DataState) : Bool × DataState :=
  let trimmedNewName := jsTrim newName
  if trimmedNewName = "" then (false, st)
  else if jsToLower oldName ≠ jsToLower trimmedNewName ∧
      jsToLower trimmedNewName ∈ st.categories.map jsToLower then (false, st)
  else
    (true,
      { st with
          products := st.products.map (fun p =>
            if p.category = oldName then { p with category := trimmedNewName } else p),
          categories := st.categories.map (fun c =>
            if c = oldName then trimmedNewName else c) })

/-- `deleteCategory` (source lines 298-308): counts products using the
name; if the count is positive, refuses with no mutation; otherwise,
when the (external) confirmation is affirmative, removes the entry. -/
def deleteCategory (name : String) (confirm : Bool) (st : DataState) : DataState :=
  let productsUsingCategory := (st.products.filter (fun p => p.category = name)).length
  if productsUsingCategory > 0 then st
  else if confirm then { st with categories := st.categories.filter (fun c => ¬ (c = name)) }
  else st

/-- An operation in a sequence of category mutations. -/
inductive CatOp where
  | add (name : String)
  | update (oldName newName : String)
  deriving DecidableEq, Repr

/-- Apply one category operation, discarding the boolean result. -/
def applyCatOp (op : CatOp) (st : DataState) : DataState :=
  match op with
  | .add name => (addCategory name st).snd
  | .update oldName newName => (updateCategory oldName newName st).snd

/-- Apply a sequence of category operations, left to right. -/
def applyCatOps (ops : List CatOp) (st : DataState) : DataState :=
  ops.foldl (fun st op => applyCatOp op st) st

/-- The case-insensitive uniqueness invariant on the category set. -/
def catUnique (cs : List String) : Prop :=
  cs.Pairwise (fun a b => jsToLower a ≠ jsToLower b)

instance (cs : List String) : Decidable (catUnique cs) := by
  unfold catUnique
  infer_instance

/-- A value cell after an unvalidated import: either a well-shaped
value or an ill-shaped one stored as-is (the source performs no shape
validation on `setX(data.x)`). -/
inductive RCell (α : Type) where
  | ok (v : α)
  | bad
  deriving DecidableEq, Repr

/-- The collections as observed after an import: each cell is either
still well-shaped or has been overwritten with an ill-shaped value. -/
structure RawState where
  products : RCell (List Product)
  sales : RCell (List Sale)
  suppliers : RCell (List Supplier)
  expenses : RCell (List Expense)
  customers : RCell (List Customer)
  purchases : RCell (List Purchase)
  customerPayments : RCell (List CustomerPayment)
  companyInfo : RCell CompanyInfo
  systemSettings : RCell SystemSettings
  categories : RCell (List String)
  deriving DecidableEq, Repr

/-- View a well-typed state as a raw state (every cell well-shaped). -/
def DataState.toRaw (st : DataState) : RawState :=
  ⟨.ok st.products, .ok st.sales, .ok st.suppliers, .ok st.expenses,
   .ok st.customers, .ok st.purchases, .ok st.customerPayments,
   .ok st.companyInfo, .ok st.systemSettings, .ok st.categories⟩

/-- One top-level field of an untyped import document. `absent` covers
a missing or falsy field (the source's `if (data.x)` truthiness test
skips both); `good` is a truthy value of the expected shape; `badTruthy`
is a truthy value of the wrong shape. -/
inductive JField (α : Type) where
  | absent
  | good (v : α)
  | badTruthy
  deriving DecidableEq, Repr

/-- `if (data.x) setX(data.x)`: an absent/falsy field keeps the old
cell; a present truthy field is stored as-is, whether or not it has the
expected shape. -/
def JField.store {α : Type} : JField α → α → RCell α
  | .absent, old => .ok old
  | .good v, _ => .ok v
  | .badTruthy, _ => .bad

/-- The top-level structure of an import document: the ten recognized
keys, each independently absent, well-shaped or ill-shaped. -/
structure BackupDoc where
  products : JField (List Product)
  sales : JField (List Sale)
  suppliers : JField (List Supplier)
  expenses : JField (List Expense)
  customers : JField (List Customer)
  purchases : JField (List Purchase)
  customerPayments : JField (List CustomerPayment)
  companyInfo : JField CompanyInfo
  systemSettings : JField SystemSettings
  categories : JField (List String)
  deriving DecidableEq, Repr

/-- An arbitrary import payload: either not an object (every property
access on it throws, e.g. `null`) or an object with the ten fields. -/
inductive ImportDoc where
  | notObject
  | obj (d : BackupDoc)
  deriving DecidableEq, Repr

/-- The observable outcome of `importData`: cancelled at the
confirmation prompt, the catch branch ("Invalid data file"), or the
success toast. -/
inductive ImportResult where
  | cancelled
  | invalidFormat
  | imported
  deriving DecidableEq, Repr

/-- `importData` (source lines 338-357): behind a confirmation prompt;
on a non-object payload the first property access throws and is caught
before any collection is assigned; on an object payload each truthy
field is stored wholesale with no shape validation. -/
def importData (confirm : Bool) (doc : ImportDoc) (st : DataState) :
    ImportResult × RawState :=
  if confirm then
    match doc with
    | .notObject => (.invalidFormat, st.toRaw)
    | .obj d =>
        (.imported,
          ⟨d.products.store st.products, d.sales.store st.sales,
           d.suppliers.store st.suppliers, d.expenses.store st.expenses,
           d.customers.store st.customers, d.purchases.store st.purchases,
           d.customerPayments.store st.customerPayments,
           d.companyInfo.store st.companyInfo,
           d.systemSettings.store st.systemSettings,
           d.categories.store st.categories⟩)
  else (.cancelled, st.toRaw)

/-- `exportBackup` (source lines 395-399, the snapshot construction):
the structured document with all ten collections present; the blob /
file-system half is external I/O outside the state layer. -/
def exportBackup (st : DataState) : ImportDoc :=
  .obj ⟨.good st.products, .good st.sales, .good st.suppliers,
        .good st.expenses, .good st.customers, .good st.purchases,
        .good st.customerPayments, .good st.companyInfo,
        .good st.systemSettings, .good st.categories⟩

/-- A sample concrete state used to instantiate witness theorems. -/
def sampleState : DataState :=
  { products := [⟨"p1", "Shirt", "Clothing", 10, 5, 10, some "S1"⟩,
                 ⟨"p2", "Hat", "Clothing", 5, 2, 4, none⟩]
    sales := []
    suppliers := [⟨"S1", "Acme"⟩]
    expenses := []
    customers := []
    purchases := []
    customerPayments := []
    companyInfo := ⟨"Swift POS", none, none, none⟩
    systemSettings := ⟨"clothing", "MMK", 0, true, true, 10, "standard",
                       "Thank you for your purchase!", "local", ""⟩
    categories := ["Clothing"] }

/-- A one-product state used by concrete counterexamples. -/
def oneProductState : DataState :=
  { products := [⟨"p1", "x", "A", 1, 1, 1, none⟩]
    sales := []
    suppliers := []
    expenses := []
    customers := []
    purchases := []
    customerPayments := []
    companyInfo := ⟨"Swift POS", none, none, none⟩
    systemSettings := ⟨"clothing", "MMK", 0, true, true, 10, "standard",
                       "Thank you for your purchase!", "local", ""⟩
    categories := ["A"] }

/-- An import document whose `products` key is present but ill-shaped
(a truthy value that is not a product array) and whose other keys are
absent. -/
def malformedDoc : ImportDoc :=
  .obj ⟨.badTruthy, .absent, .absent, .absent, .absent, .absent, .absent,
        .absent, .absent, .absent⟩

/-- A concrete sale payload whose single item references product p1. -/
def sampleSale : SaleData := ⟨[⟨"p1", 3, 10⟩], "walk-in", none, "2024-01-01"⟩

/-- A concrete sale payload whose single item references no existing
product (a dangling product reference). -/
def danglingSale : SaleData := ⟨[⟨"zz", 3, 10⟩], "walk-in", none, "2024-01-01"⟩

/-- The p1 record of `sampleState` before a restock update. -/
def sampleOldProduct : Product := ⟨"p1", "Shirt", "Clothing", 10, 5, 10, some "S1"⟩

/-- The p1 record after a restock update raising stock from 10 to 15. -/
def sampleUpdatedProduct : Product := ⟨"p1", "Shirt", "Clothing", 15, 5, 10, some "S1"⟩

theorem newSaleOf_id (newId : String) (sale : SaleData) :
    (newSaleOf newId sale).id = newId := by
  unfold newSaleOf SaleData.withId
  split <;> rfl

theorem newSaleOf_items (newId : String) (sale : SaleData) :
    (newSaleOf newId sale).items = sale.items := by
  unfold newSaleOf SaleData.withId
  split <;> rfl

theorem saleIncStock_saleDecStock (ps : List Product) (pid : String) (q : Int) :
    saleIncStock (saleDecStock ps pid q) pid q = ps := by
  induction ps with
  | nil => rfl
  | cons p rest ih =>
      obtain ⟨i, nm, cat, stk, bp, sp, sup⟩ := p
      by_cases h : i = pid
      · subst h
        simp [saleDecStock, saleIncStock]
      · simp [saleDecStock, saleIncStock, h, ih]

theorem saleIncStock_comm_saleDecStock (ps : List Product)
    (p1 : String) (q1 : Int) (p2 : String) (q2 : Int) :
    saleIncStock (saleDecStock ps p1 q1) p2 q2 =
      saleDecStock (saleIncStock ps p2 q2) p1 q1 := by
  induction ps with
  | nil => rfl
  | cons p rest ih =>
      obtain ⟨i, nm, cat, stk, bp, sp, sup⟩ := p
      by_cases h1 : i = p1 <;> by_cases h2 : i = p2
      · subst h1
        subst h2
        simp [saleDecStock, saleIncStock]
        omega
      · subst h1
        simp [saleDecStock, saleIncStock, h2]
      · subst h2
        simp [saleDecStock, saleIncStock, h1]
      · simp [saleDecStock, saleIncStock, h1, h2, ih]

theorem saleIncStock_comm_applySaleDec (items : List SaleItem)
    (ps : List Product) (pid : String) (q : Int) :
    saleIncStock (applySaleDec items ps) pid q =
      applySaleDec items (saleIncStock ps pid q) := by
  induction items generalizing ps with
  | nil => rfl
  | cons it its ih =>
      simp only [applySaleDec, List.foldl_cons] at *
      rw [ih, saleIncStock_comm_saleDecStock]

theorem applySaleInc_applySaleDec (items : List SaleItem) (ps : List Product) :
    applySaleInc items (applySaleDec items ps) = ps := by
  induction items generalizing ps with
  | nil => rfl
  | cons it its ih =>
      show applySaleInc its
        (saleIncStock (applySaleDec its (saleDecStock ps it.productId it.quantity))
          it.productId it.quantity) = ps
      rw [saleIncStock_comm_applySaleDec, saleIncStock_saleDecStock, ih]

theorem find?_append_of_none {α : Type} (p : α → Bool) (l1 l2 : List α)
    (h : l1.find? p = none) : (l1 ++ l2).find? p = l2.find? p := by
  induction l1 with
  | nil => rfl
  | cons a l ih =>
      rw [List.find?_cons] at h
      rw [List.cons_append, List.find?_cons]
      cases hp : p a with
      | true => simp [hp] at h
      | false =>
          simp only [hp] at h ⊢
          exact ih h

/-- Shared inverse lemma: adding a sale under a fresh id and then
deleting that id restores the whole state. -/
theorem deleteSale_addSale (st : DataState) (s : SaleData) (sid : String)
    (hfresh : ∀ σ ∈ st.sales, σ.id ≠ sid) :
    deleteSale sid (addSale sid s st) = st := by
  have hnone : st.sales.find? (fun σ => σ.id == sid) = none := by
    rw [List.find?_eq_none]
    intro σ hσ
    simpa using hfresh σ hσ
  have hfind : ((st.sales ++ [newSaleOf sid s]).find? fun σ => σ.id == sid)
      = some (newSaleOf sid s) := by
    rw [find?_append_of_none _ _ _ hnone]
    simp [List.find?_cons, newSaleOf_id]
  have hfilter : (st.sales ++ [newSaleOf sid s]).filter (fun σ => ¬ (σ.id = sid))
      = st.sales := by
    rw [List.filter_append]
    have h1 : st.sales.filter (fun σ => ¬ (σ.id = sid)) = st.sales :=
      List.filter_eq_self.mpr (by
        intro σ hσ
        simpa using hfresh σ hσ)
    have h2 : ([newSaleOf sid s].filter fun σ => ¬ (σ.id = sid)) = [] := by
      simp [List.filter, newSaleOf_id]
    rw [h1, h2, List.append_nil]
  unfold deleteSale addSale
  dsimp only
  rw [hfind]
  dsimp only
  rw [hfilter, newSaleOf_items, applySaleInc_applySaleDec]

theorem saleDecStock_of_absent (ps : List Product) (pid : String) (q : Int)
    (h : ∀ p ∈ ps, p.id ≠ pid) : saleDecStock ps pid q = ps := by
  induction ps with
  | nil => rfl
  | cons p rest ih =>
      simp only [saleDecStock]
      rw [if_neg (h p (List.mem_cons_self p rest)),
        ih (fun r hr => h r (List.mem_cons_of_mem _ hr))]

theorem applySaleDec_of_dangling (items : List SaleItem) (ps : List Product)
    (h : ∀ it ∈ items, ∀ p ∈ ps, p.id ≠ it.productId) :
    applySaleDec items ps = ps := by
  induction items with
  | nil => rfl
  | cons it its ih =>
      show applySaleDec its (saleDecStock ps it.productId it.quantity) = ps
      rw [saleDecStock_of_absent ps _ _ (fun r hr => h it (List.mem_cons_self it its) r hr)]
      exact ih (fun it2 h2 r hr => h it2 (List.mem_cons_of_mem _ h2) r hr)

/-- The single-call form of `addProduct`, shared by several claims. -/
theorem addProduct_eq (st : DataState) (p : ProductData) (newId purchaseId today : String) :
    addProduct newId purchaseId today p st =
      { st with
          products := st.products ++ [p.withId newId],
          purchases := st.purchases ++
            (if strTruthy p.supplierId ∧ p.stock > 0 ∧ p.buyingPrice > 0 then
              [{ id := purchaseId, date := today, supplierId := p.supplierId,
                 productId := newId, quantity := p.stock, unitCost := p.buyingPrice,
                 totalCost := p.stock * p.buyingPrice }] else []) } := by
  unfold addProduct ProductData.withId
  dsimp only
  split <;> simp_all

theorem catUnique_append_of_notMem (cs : List String) (t : String)
    (h : catUnique cs) (ht : jsToLower t ∉ cs.map jsToLower) :
    catUnique (cs ++ [t]) := by
  unfold catUnique at *
  rw [List.pairwise_append]
  refine ⟨h, List.pairwise_singleton _ _, ?_⟩
  intro a ha b hb
  rw [List.mem_singleton] at hb
  subst hb
  intro hab
  exact ht (by rw [← hab]; exact List.mem_map_of_mem jsToLower ha)

theorem catUnique_rename_lowerEq (cs : List String) (old t : String)
    (h : catUnique cs) (he : jsToLower old = jsToLower t) :
    catUnique (cs.map fun c => if c = old then t else c) := by
  unfold catUnique at h ⊢
  rw [List.pairwise_map]
  refine h.imp fun {a b} hab => ?_
  by_cases ha : a = old <;> by_cases hb : b = old
  · exact absurd (by rw [ha, hb]) hab
  · rw [if_pos ha, if_neg hb, ← he, ← ha]
    exact hab
  · rw [if_neg ha, if_pos hb, ← he, ← hb]
    exact hab
  · rw [if_neg ha, if_neg hb]
    exact hab

theorem catUnique_rename_of_notMem (cs : List String) (old t : String) :
    catUnique cs → jsToLower t ∉ cs.map jsToLower →
    catUnique (cs.map fun c => if c = old then t else c) := by
  induction cs with
  | nil => intro _ _; exact List.Pairwise.nil
  | cons c rest ih =>
      intro h hm
      unfold catUnique at h ⊢
      rw [List.pairwise_cons] at h
      obtain ⟨hc, hrest⟩ := h
      rw [List.map_cons] at hm ⊢
      rw [List.pairwise_cons]
      simp only [List.mem_cons, not_or] at hm
      obtain ⟨hmc, hmr⟩ := hm
      constructor
      · intro b' hb'
        rw [List.mem_map] at hb'
        obtain ⟨b, hb, rfl⟩ := hb'
        by_cases hco : c = old <;> by_cases hbo : b = old
        · exact absurd (by rw [hco, hbo]) (hc b hb)
        · rw [if_pos hco, if_neg hbo]
          intro hx
          exact hmr (by rw [hx]; exact List.mem_map_of_mem jsToLower hb)
        · rw [if_neg hco, if_pos hbo]
          exact fun hx => hmc hx.symm
        · rw [if_neg hco, if_neg hbo]
          exact hc b hb
      · exact ih hrest hmr

theorem addCategory_catUnique (name : String) (st : DataState)
    (h : catUnique st.categories) :
    catUnique (addCategory name st).snd.categories := by
  unfold addCategory
  dsimp only
  split
  · exact h
  · next hmem => exact catUnique_append_of_notMem _ _ h hmem

theorem updateCategory_catUnique (oldName newName : String) (st : DataState)
    (h : catUnique st.categories) :
    catUnique (updateCategory oldName newName st).snd.categories := by
  unfold updateCategory
  dsimp only
  split
  · exact h
  · split
    · exact h
    · next hcond =>
        dsimp only
        rcases not_and_or.mp hcond with hc | hc
        · exact catUnique_rename_lowerEq _ _ _ h (not_not.mp hc)
        · exact catUnique_rename_of_notMem _ _ _ h hc

/-- Shared invariant-preservation lemma for sequences of category calls. -/
theorem applyCatOps_catUnique (ops : List CatOp) (st : DataState)
    (h : catUnique st.categories) :
    catUnique (applyCatOps ops st).categories := by
  induction ops generalizing st with
  | nil => exact h
  | cons op ops ih =>
      show catUnique (applyCatOps ops (applyCatOp op st)).categories
      apply ih
      cases op with
      | add name => exact addCategory_catUnique name st h
      | update o n => exact updateCategory_catUnique o n st h

/-- C4: `addProduct` stores the new product, and appends exactly one
purchase with quantity = stock, unitCost = buyingPrice, totalCost =
stock * buyingPrice precisely when supplierId is set (truthy) and
stock > 0 and buyingPrice > 0; otherwise the purchases are unchanged.
All other collections are untouched. -/
theorem addProduct_spec (st : DataState) (p : ProductData) (newId purchaseId today : String) :
    (addProduct newId purchaseId today p st).products = st.products ++ [p.withId newId] ∧
    (addProduct newId purchaseId today p st).purchases = st.purchases ++
      (if strTruthy p.supplierId ∧ p.stock > 0 ∧ p.buyingPrice > 0 then
        [{ id := purchaseId, date := today, supplierId := p.supplierId,
           productId := newId, quantity := p.stock, unitCost := p.buyingPrice,
           totalCost := p.stock * p.buyingPrice }] else []) ∧
    (addProduct newId purchaseId today p st).sales = st.sales ∧
    (addProduct newId purchaseId today p st).categories = st.categories := by
  rw [addProduct_eq]
  exact ⟨rfl, rfl, rfl, rfl⟩

theorem addProduct_purchase_scenario :
    (addProduct "p9" "b9" "2024-01-01"
      ⟨"Shirt", "Clothing", 10, 5, 10, some "S1"⟩ sampleState).purchases =
    [{ id := "b9", date := "2024-01-01", supplierId := some "S1",
       productId := "p9", quantity := 10, unitCost := 5, totalCost := 50 }] := by
  decide

/-- C1: for every state and sale payload, `addSale` under a fresh
generated id followed by `deleteSale` of that id restores the whole
state — in particular every affected product's stock — exactly, and
`deleteSale` of an absent id is a no-op. -/
theorem addSale_deleteSale_inverse (st : DataState) (s : SaleData) (sid : String)
    (hfresh : ∀ σ ∈ st.sales, σ.id ≠ sid) :
    deleteSale sid (addSale sid s st) = st ∧ deleteSale sid st = st := by
  have hnone : st.sales.find? (fun σ => σ.id == sid) = none := by
    rw [List.find?_eq_none]
    intro σ hσ
    simpa using hfresh σ hσ
  constructor
  · exact deleteSale_addSale st s sid hfresh
  · unfold deleteSale
    rw [hnone]

theorem addSale_deleteSale_inverse_witness :
    (∀ σ ∈ sampleState.sales, σ.id ≠ "s1") ∧
    (deleteSale "s1" (addSale "s1" sampleSale sampleState) = sampleState ∧
     deleteSale "s1" sampleState = sampleState) :=
  ⟨by decide, addSale_deleteSale_inverse sampleState sampleSale "s1" (by decide)⟩

/-- C10: a line item whose productId matches no product is silently
skipped by the stock update of `addSale` (no product changes), the sale
is still stored with its full item list, and `deleteSale` undoes the
`addSale` exactly even with dangling references. -/
theorem addSale_dangling_spec (st : DataState) (s : SaleData) (sid : String)
    (hfresh : ∀ σ ∈ st.sales, σ.id ≠ sid)
    (hdangling : ∀ it ∈ s.items, ∀ p ∈ st.products, p.id ≠ it.productId) :
    (addSale sid s st).products = st.products ∧
    (addSale sid s st).sales = st.sales ++ [newSaleOf sid s] ∧
    (newSaleOf sid s).items = s.items ∧
    deleteSale sid (addSale sid s st) = st := by
  refine ⟨?_, rfl, newSaleOf_items sid s, deleteSale_addSale st s sid hfresh⟩
  show applySaleDec s.items st.products = st.products
  exact applySaleDec_of_dangling s.items st.products hdangling

theorem addSale_dangling_spec_witness :
    (∀ σ ∈ sampleState.sales, σ.id ≠ "s1") ∧
    (∀ it ∈ danglingSale.items, ∀ p ∈ sampleState.products, p.id ≠ it.productId) ∧
    ((addSale "s1" danglingSale sampleState).products = sampleState.products ∧
     (addSale "s1" danglingSale sampleState).sales =
        sampleState.sales ++ [newSaleOf "s1" danglingSale] ∧
     (newSaleOf "s1" danglingSale).items = danglingSale.items ∧
     deleteSale "s1" (addSale "s1" danglingSale sampleState) = sampleState) :=
  ⟨by decide, by decide,
   addSale_dangling_spec sampleState danglingSale "s1" (by decide) (by decide)⟩

/-- C9: `addProduct` under a fresh generated id followed by
`deleteProduct` of that id restores the prior product collection (and
every other collection) exactly, except that the purchases collection
keeps whatever purchase the `addProduct` auto-created — that purchase
is not rolled back. -/
theorem addProduct_deleteProduct_inverse (st : DataState) (p : ProductData)
    (pid purchaseId today : String)
    (hfresh : ∀ q ∈ st.products, q.id ≠ pid) :
    deleteProduct pid (addProduct pid purchaseId today p st) =
      { st with purchases := (addProduct pid purchaseId today p st).purchases } ∧
    (addProduct pid purchaseId today p st).purchases = st.purchases ++
      (if strTruthy p.supplierId ∧ p.stock > 0 ∧ p.buyingPrice > 0 then
        [{ id := purchaseId, date := today, supplierId := p.supplierId,
           productId := pid, quantity := p.stock, unitCost := p.buyingPrice,
           totalCost := p.stock * p.buyingPrice }] else []) := by
  have hfil : (st.products ++ [p.withId pid]).filter (fun q => ¬ (q.id = pid))
      = st.products := by
    rw [List.filter_append]
    have h1 : st.products.filter (fun q => ¬ (q.id = pid)) = st.products :=
      List.filter_eq_self.mpr (by
        intro q hq
        simpa using hfresh q hq)
    have h2 : ([p.withId pid].filter fun q => ¬ (q.id = pid)) = [] := by
      simp [List.filter, ProductData.withId]
    rw [h1, h2, List.append_nil]
  rw [addProduct_eq]
  unfold deleteProduct
  dsimp only
  rw [hfil]
  exact ⟨rfl, rfl⟩

theorem addProduct_deleteProduct_inverse_witness :
    (∀ q ∈ sampleState.products, q.id ≠ "p9") ∧
    deleteProduct "p9" (addProduct "p9" "b9" "2024-01-01"
        ⟨"Shirt", "Clothing", 10, 5, 10, some "S1"⟩ sampleState) =
      { sampleState with purchases := (addProduct "p9" "b9" "2024-01-01"
          ⟨"Shirt", "Clothing", 10, 5, 10, some "S1"⟩ sampleState).purchases } :=
  ⟨by decide,
   (addProduct_deleteProduct_inverse sampleState
      ⟨"Shirt", "Clothing", 10, 5, 10, some "S1"⟩ "p9" "b9" "2024-01-01" (by decide)).1⟩

/-- C5: when the product exists, `updateProduct` replaces every product
record with the given id and appends exactly one purchase whose
quantity is the stock delta (not the full new stock), with
unitCost = buyingPrice and totalCost = delta * buyingPrice, precisely
when the delta is positive and the supplier/buyingPrice conditions
hold; otherwise the purchases are unchanged. -/
theorem updateProduct_spec (st : DataState) (up old : Product) (purchaseId today : String)
    (hfind : st.products.find? (fun p => p.id == up.id) = some old) :
    (updateProduct purchaseId today up st).products =
      st.products.map (fun p => if p.id = up.id then up else p) ∧
    (updateProduct purchaseId today up st).purchases = st.purchases ++
      (if strTruthy up.supplierId ∧ up.stock - old.stock > 0 ∧ up.buyingPrice > 0 then
        [{ id := purchaseId, date := today, supplierId := up.supplierId,
           productId := up.id, quantity := up.stock - old.stock,
           unitCost := up.buyingPrice,
           totalCost := (up.stock - old.stock) * up.buyingPrice }] else []) ∧
    (updateProduct purchaseId today up st).sales = st.sales := by
  unfold updateProduct
  rw [hfind]
  dsimp only
  split
  · exact ⟨rfl, rfl, rfl⟩
  · exact ⟨rfl, by rw [List.append_nil], rfl⟩

theorem updateProduct_spec_witness :
    (sampleState.products.find? fun p => p.id == sampleUpdatedProduct.id)
      = some sampleOldProduct ∧
    (updateProduct "b2" "2024-01-02" sampleUpdatedProduct sampleState).products =
      sampleState.products.map
        (fun p => if p.id = sampleUpdatedProduct.id then sampleUpdatedProduct else p) :=
  ⟨by decide,
   (updateProduct_spec sampleState sampleUpdatedProduct sampleOldProduct
      "b2" "2024-01-02" (by decide)).1⟩

/-- C6 (counterexample): `updateCategory("A", "A")` on a state with a
product in category "A" succeeds (returns true), yet afterwards a
product's category still equals the old name — the claim "no Product's
category field equals old after success" fails when the trimmed new
name equals the old name. -/
theorem updateCategory_identity_counterexample :
    (updateCategory "A" "A" oneProductState).fst = true ∧
    ∃ p ∈ (updateCategory "A" "A" oneProductState).snd.products,
      p.category = "A" := by
  decide

/-- C6 (amended): after every successful `updateCategory(old, new)`
call, every product whose category equalled `old` now carries the
trimmed new name, all other products are unchanged, the category entry
`old` is renamed — and, provided the trimmed new name differs from
`old`, no product's category equals `old` any more. -/
theorem updateCategory_success_spec (st : DataState) (oldName newName : String)
    (hsucc : (updateCategory oldName newName st).fst = true) :
    (updateCategory oldName newName st).snd.products =
      st.products.map (fun p =>
        if p.category = oldName then { p with category := jsTrim newName } else p) ∧
    (updateCategory oldName newName st).snd.categories =
      st.categories.map (fun c => if c = oldName then jsTrim newName else c) ∧
    (oldName ≠ jsTrim newName →
      ∀ p ∈ (updateCategory oldName newName st).snd.products, p.category ≠ oldName) := by
  unfold updateCategory at hsucc ⊢
  dsimp only at hsucc ⊢
  split at hsucc
  · simp at hsucc
  · next h1 =>
      split at hsucc
      · simp at hsucc
      · next h2 =>
          rw [if_neg h1, if_neg h2]
          dsimp only
          refine ⟨rfl, rfl, ?_⟩
          intro hne p hp
          rw [List.mem_map] at hp
          obtain ⟨q, hq, rfl⟩ := hp
          by_cases hqc : q.category = oldName
          · rw [if_pos hqc]
            exact fun hx => hne hx.symm
          · rw [if_neg hqc]
            exact hqc

theorem updateCategory_success_spec_witness :
    (updateCategory "Clothing" "Apparel" sampleState).fst = true ∧
    (updateCategory "Clothing" "Apparel" sampleState).snd.categories =
      sampleState.categories.map
        (fun c => if c = "Clothing" then jsTrim "Apparel" else c) :=
  ⟨by decide,
   (updateCategory_success_spec sampleState "Clothing" "Apparel" (by decide)).2.1⟩

/-- C7: `deleteCategory` never removes a category while some product
references it — with a positive referencing count the call mutates
nothing — and only with a zero count and affirmative confirmation is
the entry removed; without confirmation nothing changes. -/
theorem deleteCategory_guard (st : DataState) (name : String) (confirm : Bool) :
    ((st.products.filter (fun p => p.category = name)).length > 0 →
      deleteCategory name confirm st = st) ∧
    ((st.products.filter (fun p => p.category = name)).length = 0 → confirm = true →
      deleteCategory name confirm st =
        { st with categories := st.categories.filter (fun c => ¬ (c = name)) }) ∧
    (confirm = false → deleteCategory name confirm st = st) := by
  unfold deleteCategory
  dsimp only
  refine ⟨?_, ?_, ?_⟩
  · intro h
    rw [if_pos h]
  · intro h hc
    rw [if_neg (by omega), hc, if_pos rfl]
  · intro hc
    subst hc
    split <;> simp

theorem deleteCategory_guard_witness :
    ((sampleState.products.filter (fun p => p.category = "Clothing")).length > 0 ∧
      deleteCategory "Clothing" true sampleState = sampleState) ∧
    ((oneProductState.products.filter (fun p => p.category = "B")).length = 0 ∧
      deleteCategory "B" true oneProductState =
        { oneProductState with
            categories := oneProductState.categories.filter (fun c => ¬ (c = "B")) }) :=
  ⟨⟨by decide, (deleteCategory_guard sampleState "Clothing" true).1 (by decide)⟩,
   ⟨by decide, (deleteCategory_guard oneProductState "B" true).2.1 (by decide) rfl⟩⟩

/-- C3 (counterexample): from a state satisfying the invariant
(unique, non-empty category names), `addCategory(" ")` appends the
empty trimmed name, so "no category name is empty after trimming" is
not preserved by addCategory. -/
theorem addCategory_blank_counterexample :
    (catUnique oneProductState.categories ∧
      ∀ c ∈ oneProductState.categories, jsTrim c ≠ "") ∧
    (addCategory " " oneProductState).fst = true ∧
    ∃ c ∈ (applyCatOps [CatOp.add " "] oneProductState).categories, jsTrim c = "" := by
  decide

/-- C3 (amended): starting from any state whose categories are pairwise
unique case-insensitively, any sequence of `addCategory` /
`updateCategory` calls preserves that uniqueness; `addCategory` rejects
case-insensitive duplicates with no mutation, and `updateCategory`
rejects empty trimmed new names and case-insensitive duplicates with no
mutation. (Emptiness after trim is not preserved: see the
counterexample — `addCategory` accepts a blank name.) -/
theorem categoryOps_unique_spec (ops : List CatOp) (st : DataState)
    (h : catUnique st.categories) :
    catUnique (applyCatOps ops st).categories ∧
    (∀ name, jsToLower (jsTrim name) ∈ st.categories.map jsToLower →
      addCategory name st = (false, st)) ∧
    (∀ o n, jsTrim n = "" → updateCategory o n st = (false, st)) ∧
    (∀ o n, jsToLower o ≠ jsToLower (jsTrim n) →
      jsToLower (jsTrim n) ∈ st.categories.map jsToLower →
      updateCategory o n st = (false, st)) := by
  refine ⟨applyCatOps_catUnique ops st h, ?_, ?_, ?_⟩
  · intro name hm
    unfold addCategory
    dsimp only
    rw [if_pos hm]
  · intro o n hn
    unfold updateCategory
    dsimp only
    rw [if_pos hn]
  · intro o n h1 h2
    unfold updateCategory
    dsimp only
    split
    · rfl
    · rw [if_pos ⟨h1, h2⟩]

theorem categoryOps_unique_spec_witness :
    catUnique sampleState.categories ∧
    catUnique (applyCatOps [CatOp.add "Shoes", CatOp.update "Shoes" "shoes"]
      sampleState).categories :=
  ⟨by decide,
   (categoryOps_unique_spec [CatOp.add "Shoes", CatOp.update "Shoes" "shoes"]
      sampleState (by decide)).1⟩

/-- C2 (counterexample): an import document that is not parseable as
the expected structure — its `products` key holds a truthy value of the
wrong shape — is reported as a successful import and replaces the
products collection with the ill-shaped value: it does not fail with
the invalid-format error and it does mutate state. -/
theorem importData_malformed_counterexample :
    (importData true malformedDoc sampleState).fst = ImportResult.imported ∧
    (importData true malformedDoc sampleState).fst ≠ ImportResult.invalidFormat ∧
    (importData true malformedDoc sampleState).snd.products = RCell.bad ∧
    (importData true malformedDoc sampleState).snd ≠ sampleState.toRaw := by
  refine ⟨rfl, by decide, rfl, ?_⟩
  intro h
  have := congrArg RawState.products h
  simp [malformedDoc, importData, JField.store, DataState.toRaw] at this

/-- C2 (amended): given confirmation, `importData` on an object payload
replaces the corresponding collection for each present truthy key,
leaves collections for absent (or falsy) keys untouched, and reports
success; it performs no per-key shape validation, so a present
ill-shaped value is stored as-is. Only a payload that is not an object
(whose first property access throws) takes the error path, and then no
collection is assigned; without confirmation nothing changes. -/
theorem importData_actual_spec (d : BackupDoc) (doc : ImportDoc) (st : DataState) :
    (importData true (.obj d) st).fst = ImportResult.imported ∧
    (importData true (.obj d) st).snd =
      ⟨d.products.store st.products, d.sales.store st.sales,
       d.suppliers.store st.suppliers, d.expenses.store st.expenses,
       d.customers.store st.customers, d.purchases.store st.purchases,
       d.customerPayments.store st.customerPayments,
       d.companyInfo.store st.companyInfo, d.systemSettings.store st.systemSettings,
       d.categories.store st.categories⟩ ∧
    (d.products = JField.absent →
      (importData true (.obj d) st).snd.products = RCell.ok st.products) ∧
    (∀ l, d.products = JField.good l →
      (importData true (.obj d) st).snd.products = RCell.ok l) ∧
    (d.products = JField.badTruthy →
      (importData true (.obj d) st).snd.products = RCell.bad) ∧
    importData true ImportDoc.notObject st = (ImportResult.invalidFormat, st.toRaw) ∧
    importData false doc st = (ImportResult.cancelled, st.toRaw) := by
  refine ⟨rfl, rfl, ?_, ?_, ?_, rfl, rfl⟩
  · intro h
    show d.products.store st.products = RCell.ok st.products
    rw [h]
    rfl
  · intro l h
    show d.products.store st.products = RCell.ok l
    rw [h]
    rfl
  · intro h
    show d.products.store st.products = RCell.bad
    rw [h]
    rfl

theorem importData_actual_spec_witness :
    ((.obj (BackupDoc.mk .absent .absent .absent .absent .absent .absent .absent
        .absent .absent .absent) : ImportDoc) = .obj (BackupDoc.mk .absent .absent
        .absent .absent .absent .absent .absent .absent .absent .absent)) ∧
    (importData true (.obj (BackupDoc.mk .absent .absent .absent .absent .absent
        .absent .absent .absent .absent .absent)) sampleState).snd.products =
      RCell.ok sampleState.products :=
  ⟨rfl,
   (importData_actual_spec (BackupDoc.mk .absent .absent .absent .absent .absent
      .absent .absent .absent .absent .absent) ImportDoc.notObject
      sampleState).2.2.1 rfl⟩

/-- C8: importing the snapshot produced by `exportBackup` (given
confirmation) succeeds and yields a state observably equal to the state
before export: all ten collections, CompanyInfo and SystemSettings are
unchanged by the round trip. -/
theorem export_import_roundtrip (st : DataState) :
    importData true (exportBackup st) st = (ImportResult.imported, st.toRaw) := rfl
